import Mathlib

/-!
Shallow embedding of the conversation-synchronization core of the chatsite
repository (a Next.js + Supabase direct-messaging app), together with proofs
and refutations of the claims the specification makes about it.

The embedded functions mirror, line by line, the client-side logic of
`components/Chat.tsx` (the unnamed chat component source) and
`pages/index.tsx`:
  - `getRoomId`            : the room-identifier derivation;
  - `mergeMessage`         : the realtime-listener state update on an INSERT
                             event, including the 200-message retention slice;
  - `messageListener`      : the event-type guard around `mergeMessage`;
  - `handleSendMessage`    : the local send guard and the row it inserts;
  - `generatedShortId`     : the short-id derivation in `upsertProfile`;
  - `upsertProfile`        : the profile-provisioning branch structure;
  - `handleAddFriend`      : the two-directional friend insert and its error
                             reporting.

External I/O results (fetch results, insert errors, the hash function, the
random username suffix) are passed in as explicit arguments, which is the
standard way to embed effectful TypeScript shallowly.
-/

set_option maxRecDepth 100000

namespace Chatsite

/-- The `Profile` record shape of the source (`interface Profile`). -/
structure Profile where
  id : String
  username : Option String
  avatar_url : Option String
  short_id : String
deriving DecidableEq

/-- The `Message` record shape of the source (`interface Message`). -/
structure Message where
  id : String
  created_at : String
  user_id : String
  room_id : String
  content : Option String
  image_url : Option String
  profiles : Option Profile
deriving DecidableEq

/-! ### RoomIdentity: `getRoomId` (Chat component, lines 38-40)

`const getRoomId = (user1Id, user2Id) =>
   user1Id < user2Id ? user1Id + "_" + user2Id : user2Id + "_" + user1Id` -/

/-- Embedding of `getRoomId`: order the two ids by the string comparison and
join with the underscore separator. -/
def getRoomId (user1Id user2Id : String) : String :=
  if user1Id < user2Id then user1Id ++ "_" ++ user2Id
  else user2Id ++ "_" ++ user1Id

lemma data_append (s t : String) : (s ++ t).data = s.data ++ t.data := rfl

lemma data_getRoomId_pos {a b : String} (h : a < b) :
    (getRoomId a b).data = a.data ++ '_' :: b.data := by
  rw [getRoomId, if_pos h, data_append, data_append, List.append_assoc]
  rfl

lemma data_getRoomId_neg {a b : String} (h : ¬ a < b) :
    (getRoomId a b).data = b.data ++ '_' :: a.data := by
  rw [getRoomId, if_neg h, data_append, data_append, List.append_assoc]
  rfl

/-- Splitting a list at a distinguished separator element is unambiguous when
neither left part contains the separator. -/
lemma append_sep_inj (sep : Char) :
    ∀ (x u y v : List Char), sep ∉ x → sep ∉ u →
      x ++ sep :: y = u ++ sep :: v → x = u ∧ y = v := by
  intro x
  induction x with
  | nil =>
    intro u y v _ hu h
    cases u with
    | nil => simpa using h
    | cons c u' =>
      simp only [List.nil_append, List.cons_append, List.cons.injEq] at h
      exact absurd (h.1 ▸ List.mem_cons_self c u') hu
  | cons c x' ih =>
    intro u y v hx hu h
    cases u with
    | nil =>
      simp only [List.cons_append, List.nil_append, List.cons.injEq] at h
      exact absurd (h.1 ▸ List.mem_cons_self c x') hx
    | cons d u' =>
      simp only [List.cons_append, List.cons.injEq] at h
      obtain ⟨rfl, h2⟩ := h
      have hx' : sep ∉ x' := fun hm => hx (List.mem_cons_of_mem _ hm)
      have hu' : sep ∉ u' := fun hm => hu (List.mem_cons_of_mem _ hm)
      obtain ⟨rfl, rfl⟩ := ih u' y v hx' hu' h2
      exact ⟨rfl, rfl⟩

lemma string_data_inj {s t : String} (h : s.data = t.data) : s = t := by
  cases s; cases t; exact congrArg String.mk h

/-- C4: `getRoomId` is a pure total function, commutative in its two
arguments (including the degenerate self-chat case `a = b`, where it yields
the well-defined value `a ++ "_" ++ a` rather than rejecting). -/
theorem getRoomId_comm_total (a b : String) :
    getRoomId a b = getRoomId b a ∧ getRoomId a a = a ++ "_" ++ a := by
  constructor
  · rcases lt_trichotomy a b with h | h | h
    · rw [getRoomId, getRoomId, if_pos h, if_neg (not_lt.mpr h.le)]
    · subst h; rfl
    · rw [getRoomId, getRoomId, if_neg (not_lt.mpr h.le), if_pos h]
  · rw [getRoomId, if_neg (lt_irrefl a)]

/-- C5 counterexample: with arbitrary identifier strings the separator can
occur inside an identifier, and then two distinct peers of the same user can
collide: both pairs below map to the room id made of underscore, x,
underscore, underscore, x, underscore. -/
theorem getRoomId_collision_cex :
    getRoomId "_x_" "x_" = getRoomId "_x_" "_x" ∧ ("x_" : String) ≠ "_x" := by
  constructor
  · have h1 : ("_x_" : String) < "x_" := String.lt_iff_toList_lt.mpr (by decide)
    have h2 : ¬ ("_x_" : String) < "_x" := fun hlt =>
      absurd (String.lt_iff_toList_lt.mp hlt) (by decide)
    apply string_data_inj
    rw [data_getRoomId_pos h1, data_getRoomId_neg h2]
    decide
  · decide

/-- C5 amended: `getRoomId` has no collisions for distinct peers sharing one
side as long as the separator underscore does not occur inside any of the
identifiers involved (which holds for the UUID user ids the app actually
uses). -/
theorem getRoomId_inj_of_sep_free (a b c : String)
    (ha : '_' ∉ a.data) (hb : '_' ∉ b.data) (hc : '_' ∉ c.data)
    (hbc : b ≠ c) : getRoomId a b ≠ getRoomId a c := by
  intro h
  have hd := congrArg String.data h
  by_cases h1 : a < b <;> by_cases h2 : a < c
  · rw [data_getRoomId_pos h1, data_getRoomId_pos h2] at hd
    obtain ⟨-, h4⟩ := append_sep_inj '_' _ _ _ _ ha ha hd
    exact hbc (string_data_inj h4)
  · rw [data_getRoomId_pos h1, data_getRoomId_neg h2] at hd
    obtain ⟨h3, h4⟩ := append_sep_inj '_' _ _ _ _ ha hc hd
    exact hbc (string_data_inj (h4.trans h3))
  · rw [data_getRoomId_neg h1, data_getRoomId_pos h2] at hd
    obtain ⟨h3, h4⟩ := append_sep_inj '_' _ _ _ _ hb ha hd
    exact hbc (string_data_inj (h3.trans h4))
  · rw [data_getRoomId_neg h1, data_getRoomId_neg h2] at hd
    obtain ⟨h3, -⟩ := append_sep_inj '_' _ _ _ _ hb hc hd
    exact hbc (string_data_inj h3)

/-- C5 amended, witness: concrete separator-free identifiers u, v, w give
distinct room ids. -/
theorem getRoomId_inj_of_sep_free_witness :
    getRoomId "u" "v" ≠ getRoomId "u" "w" :=
  getRoomId_inj_of_sep_free "u" "v" "w" (by decide) (by decide) (by decide)
    (by decide)

/-! ### ConversationSync: the realtime listener (Chat component, lines 59-96)

On a change-feed event for the room, the handler runs only for
`payload.eventType === "INSERT"`; it fetches the author profile, appends
`{ ...payload.new, profiles: profileData }` to the previous message list, and
if the result exceeds 200 entries it keeps `slice(length - 200)`, i.e. the
last 200 in append order. -/

/-- The change-feed event kinds of the backend (postgres changes). -/
inductive EventType
  | INSERT
  | UPDATE
  | DELETE
deriving DecidableEq

/-- A change-feed payload: its event type and the new row (`payload.new`). -/
structure Payload where
  eventType : EventType
  newRecord : Message
deriving DecidableEq

/-- The state update the listener applies on an INSERT event: append the new
message, then slice to the last 200 when over the bound (lines 76-84). -/
def mergeMessage (prevMessages : List Message) (newMsg : Message) : List Message :=
  let newMessages := prevMessages ++ [newMsg]
  if newMessages.length > 200 then
    newMessages.drop (newMessages.length - 200)
  else
    newMessages

/-- The listener body (lines 65-87): only INSERT events touch the state; the
fetched author profile (`profileData`, an external lookup result here passed
as an argument) is attached to the new row before the merge. -/
def messageListener (prevMessages : List Message) (payload : Payload)
    (profileData : Option Profile) : List Message :=
  if payload.eventType = EventType.INSERT then
    mergeMessage prevMessages { payload.newRecord with profiles := profileData }
  else
    prevMessages

/-- `fetchMessages` result handling (line 118): `setMessages(data || [])`. -/
def fetchMessages (data : Option (List Message)) : List Message :=
  data.getD []

/-- View after a bulk-read result `bulk` and a sequence of INSERT merges in
delivery order. -/
def viewAfter (bulk : List Message) (events : List Message) : List Message :=
  events.foldl mergeMessage bulk

/-- The last `n` entries of a list (everything after dropping the front
overflow). -/
def lastN (n : Nat) (l : List Message) : List Message :=
  l.drop (l.length - n)

/-- How many entries of the view carry a given message id. -/
def countId (l : List Message) (i : String) : Nat :=
  (l.filter (fun m => m.id == i)).length

/-- Strict lexicographic comparison of character lists by code point, the
order the spec means by string comparison of timestamps and ids. -/
def charListLtB : List Char → List Char → Bool
  | _, [] => false
  | [], _ :: _ => true
  | a :: as, b :: bs =>
    if a.toNat < b.toNat then true
    else if b.toNat < a.toNat then false
    else charListLtB as bs

/-- Strict string comparison on the underlying characters. -/
def strLtB (s t : String) : Bool :=
  charListLtB s.data t.data

/-- Strict (timestamp, id) key comparison between messages. -/
def keyLT (a b : Message) : Bool :=
  strLtB a.created_at b.created_at ||
    (a.created_at == b.created_at && strLtB a.id b.id)

/-- Non-strict (timestamp, id) key comparison between messages. -/
def keyLE (a b : Message) : Bool :=
  keyLT a b || (a.created_at == b.created_at && a.id == b.id)

/-- The view is ascending under the (timestamp, id) key. -/
def sortedByKey : List Message → Bool
  | [] => true
  | [_] => true
  | a :: b :: rest => keyLE a b && sortedByKey (b :: rest)

/-- A sample message with the smaller (timestamp, id) key. -/
def msgA : Message :=
  { id := "a", created_at := "001", user_id := "u1", room_id := "r",
    content := some "hello", image_url := none, profiles := none }

/-- A sample message with the larger (timestamp, id) key. -/
def msgB : Message :=
  { id := "b", created_at := "002", user_id := "u2", room_id := "r",
    content := some "world", image_url := none, profiles := none }

lemma lastN_of_le {n : Nat} {l : List Message} (h : l.length ≤ n) :
    lastN n l = l := by
  unfold lastN
  rw [Nat.sub_eq_zero_of_le h, List.drop_zero]

lemma length_lastN_le (n : Nat) (l : List Message) : (lastN n l).length ≤ n := by
  unfold lastN
  rw [List.length_drop]
  omega

lemma mergeMessage_eq_lastN (prev : List Message) (m : Message) :
    mergeMessage prev m = lastN 200 (prev ++ [m]) := by
  simp only [mergeMessage]
  by_cases h : (prev ++ [m]).length > 200
  · rw [if_pos h]
    rfl
  · rw [if_neg h]
    exact (lastN_of_le (by omega)).symm

lemma mergeMessage_length_le (prev : List Message) (m : Message) :
    (mergeMessage prev m).length ≤ 200 := by
  rw [mergeMessage_eq_lastN]
  exact length_lastN_le 200 _

lemma lastN_append_absorb (n : Nat) (xs ys : List Message) :
    lastN n (lastN n xs ++ ys) = lastN n (xs ++ ys) := by
  by_cases h : xs.length ≤ n
  · rw [lastN_of_le h]
  · push_neg at h
    unfold lastN
    rw [List.length_append, List.length_append, List.length_drop]
    have h1 : xs.length - (xs.length - n) = n := by omega
    rw [h1]
    have h2 : n + ys.length - n = ys.length := by omega
    rw [h2]
    have h3 : xs.length + ys.length - n = (xs.length - n) + ys.length := by
      omega
    rw [h3, ← List.drop_drop]
    congr 1
    rw [List.drop_append_eq_append_drop]
    have h4 : xs.length - n - xs.length = 0 := by omega
    rw [h4, List.drop_zero]

lemma viewAfter_eq_lastN_aux :
    ∀ (events bulk : List Message), bulk.length ≤ 200 →
      viewAfter bulk events = lastN 200 (bulk ++ events) := by
  intro events
  induction events with
  | nil =>
    intro bulk h
    rw [List.append_nil]
    exact (lastN_of_le h).symm
  | cons e es ih =>
    intro bulk h
    have hstep : viewAfter bulk (e :: es) = viewAfter (mergeMessage bulk e) es :=
      rfl
    rw [hstep, ih _ (mergeMessage_length_le bulk e), mergeMessage_eq_lastN,
      lastN_append_absorb, List.append_assoc]
    rfl

/-- C1 counterexample: re-merging a live event whose message id is already
present in the view is not a no-op: the listener appends unconditionally, so
the message then appears twice, not once. -/
theorem mergeMessage_not_idempotent_cex :
    mergeMessage [msgA] msgA ≠ [msgA] ∧
      countId (mergeMessage [msgA] msgA) msgA.id = 2 := by
  decide

/-- C1 amended: under the retention bound, merging an event always appends
it, so an id already in the view gains one more occurrence instead of being
deduplicated. -/
theorem mergeMessage_duplicate_appends (prev : List Message) (m : Message)
    (h : prev.length < 200) :
    countId (mergeMessage prev m) m.id = countId prev m.id + 1 := by
  have hne : ¬ (prev ++ [m]).length > 200 := by
    rw [List.length_append]
    simp only [List.length_singleton]
    omega
  simp only [mergeMessage]
  rw [if_neg hne]
  unfold countId
  rw [List.filter_append, List.length_append]
  have hm : List.filter (fun x => x.id == m.id) [m] = [m] := by simp
  rw [hm]
  rfl

/-- C1 amended, witness: merging `msgA` into a view already holding `msgA`
raises its occurrence count from 1 to 2. -/
theorem mergeMessage_duplicate_appends_witness :
    countId (mergeMessage [msgA] msgA) msgA.id = countId [msgA] msgA.id + 1 :=
  mergeMessage_duplicate_appends [msgA] msgA (by decide)

/-- C2 counterexample: live events are appended in network delivery order,
so delivering the newer message first leaves the view unsorted under the
(timestamp, id) key, and the two delivery orders materialize different
sequences. -/
theorem viewAfter_order_dependent_cex :
    sortedByKey (viewAfter [] [msgB, msgA]) = false ∧
      viewAfter [] [msgB, msgA] ≠ viewAfter [] [msgA, msgB] := by
  decide

/-- C2 amended: the materialized view is exactly the bulk-read result
followed by the live events in delivery order, trimmed to the last 200 —
it depends on the delivery order, not on the (timestamp, id) key. -/
theorem viewAfter_delivery_order (bulk events : List Message)
    (h : bulk.length ≤ 200) :
    viewAfter bulk events = lastN 200 (bulk ++ events) :=
  viewAfter_eq_lastN_aux events bulk h

/-- C2 amended, witness: a one-element bulk read plus one live event. -/
theorem viewAfter_delivery_order_witness :
    viewAfter [msgA] [msgB] = lastN 200 ([msgA] ++ [msgB]) :=
  viewAfter_delivery_order [msgA] [msgB] (by decide)

/-- Fixed-width three-digit decimal rendering of a small number, used to
build concrete message ids and timestamps whose string order agrees with the
numeric order. -/
def pad3 (i : Nat) : String :=
  String.mk [Char.ofNat (48 + i / 100 % 10), Char.ofNat (48 + i / 10 % 10),
    Char.ofNat (48 + i % 10)]

/-- A concrete message whose id and creation timestamp both render `i`. -/
def mkMsg (i : Nat) : Message :=
  { id := pad3 i, created_at := pad3 i, user_id := "u1", room_id := "r",
    content := some "m", image_url := none, profiles := none }

/-- 201 distinct messages delivered with the newest one first. -/
def deliveredLateFirst : List Message :=
  mkMsg 200 :: (List.range 200).map mkMsg

lemma char_digit_toNat : ∀ d < 10, (Char.ofNat (48 + d)).toNat = 48 + d := by
  decide

lemma pad3_inj {i j : Nat} (hi : i < 1000) (hj : j < 1000)
    (h : pad3 i = pad3 j) : i = j := by
  have hd : [Char.ofNat (48 + i / 100 % 10), Char.ofNat (48 + i / 10 % 10),
      Char.ofNat (48 + i % 10)] =
      [Char.ofNat (48 + j / 100 % 10), Char.ofNat (48 + j / 10 % 10),
      Char.ofNat (48 + j % 10)] := congrArg String.data h
  injection hd with h1 hd'
  injection hd' with h2 hd''
  injection hd'' with h3 _
  have e1 := congrArg Char.toNat h1
  have e2 := congrArg Char.toNat h2
  have e3 := congrArg Char.toNat h3
  rw [char_digit_toNat (i / 100 % 10) (by omega),
    char_digit_toNat (j / 100 % 10) (by omega)] at e1
  rw [char_digit_toNat (i / 10 % 10) (by omega),
    char_digit_toNat (j / 10 % 10) (by omega)] at e2
  rw [char_digit_toNat (i % 10) (by omega),
    char_digit_toNat (j % 10) (by omega)] at e3
  omega

lemma strLtB_pad3 {i j : Nat} (hi : i < 1000) (hj : j < 1000) (hij : i < j) :
    strLtB (pad3 i) (pad3 j) = true := by
  have t1 := char_digit_toNat (i / 100 % 10) (by omega)
  have t2 := char_digit_toNat (i / 10 % 10) (by omega)
  have t3 := char_digit_toNat (i % 10) (by omega)
  have u1 := char_digit_toNat (j / 100 % 10) (by omega)
  have u2 := char_digit_toNat (j / 10 % 10) (by omega)
  have u3 := char_digit_toNat (j % 10) (by omega)
  show charListLtB
      [Char.ofNat (48 + i / 100 % 10), Char.ofNat (48 + i / 10 % 10),
        Char.ofNat (48 + i % 10)]
      [Char.ofNat (48 + j / 100 % 10), Char.ofNat (48 + j / 10 % 10),
        Char.ofNat (48 + j % 10)] = true
  simp only [charListLtB, t1, t2, t3, u1, u2, u3]
  rcases Nat.lt_trichotomy (i / 100 % 10) (j / 100 % 10) with h1 | h1 | h1
  · rw [if_pos (by omega)]
  · rw [if_neg (by omega), if_neg (by omega)]
    rcases Nat.lt_trichotomy (i / 10 % 10) (j / 10 % 10) with h2 | h2 | h2
    · rw [if_pos (by omega)]
    · rw [if_neg (by omega), if_neg (by omega), if_pos (by omega)]
    · exact absurd h2 (by omega)
  · exact absurd h1 (by omega)

/-- C3 counterexample: merging 201 distinct messages with the newest
delivered first evicts that newest message — the view keeps the last 200 in
delivery order, not the 200 most recent by (timestamp, id). -/
theorem retention_most_recent_evicted_cex :
    deliveredLateFirst.length = 201 ∧
      (deliveredLateFirst.map Message.id).Nodup ∧
      deliveredLateFirst.all
          (fun m => m == mkMsg 200 || keyLT m (mkMsg 200)) = true ∧
      mkMsg 200 ∉ viewAfter [] deliveredLateFirst := by
  have hlen : deliveredLateFirst.length = 201 := by
    simp [deliveredLateFirst]
  have hnodup : (deliveredLateFirst.map Message.id).Nodup := by
    have hmap : deliveredLateFirst.map Message.id =
        (200 :: List.range 200).map pad3 := by
      simp only [deliveredLateFirst, List.map_cons, List.map_map]
      rfl
    rw [hmap]
    apply List.Nodup.map_on
    · intro x hx y hy hxy
      have hx' : x < 1000 := by
        rcases List.mem_cons.mp hx with rfl | hx'
        · omega
        · rw [List.mem_range] at hx'
          omega
      have hy' : y < 1000 := by
        rcases List.mem_cons.mp hy with rfl | hy'
        · omega
        · rw [List.mem_range] at hy'
          omega
      exact pad3_inj hx' hy' hxy
    · exact List.nodup_cons.mpr ⟨by simp, List.nodup_range 200⟩
  have hall : deliveredLateFirst.all
      (fun m => m == mkMsg 200 || keyLT m (mkMsg 200)) = true := by
    rw [List.all_eq_true]
    intro m hm
    rcases List.mem_cons.mp hm with rfl | hm'
    · simp
    · obtain ⟨i, hi, rfl⟩ := List.mem_map.mp hm'
      rw [List.mem_range] at hi
      have hk : keyLT (mkMsg i) (mkMsg 200) = true := by
        unfold keyLT
        rw [show (mkMsg i).created_at = pad3 i from rfl,
          show (mkMsg 200).created_at = pad3 200 from rfl,
          strLtB_pad3 (by omega) (by omega) (by omega)]
        simp
      rw [hk]
      simp
  have hview : viewAfter [] deliveredLateFirst =
      (List.range 200).map mkMsg := by
    have h0 : ([] : List Message).length ≤ 200 := by simp
    have hv := viewAfter_eq_lastN_aux deliveredLateFirst [] h0
    rw [List.nil_append] at hv
    rw [hv]
    unfold lastN
    rw [hlen]
    rfl
  have hmem : mkMsg 200 ∉ (List.range 200).map mkMsg := by
    intro hmem
    obtain ⟨i, hi, heq⟩ := List.mem_map.mp hmem
    rw [List.mem_range] at hi
    have hid : pad3 i = pad3 200 := congrArg Message.id heq
    have := pad3_inj (by omega) (by omega) hid
    omega
  exact ⟨hlen, hnodup, hall, by rw [hview]; exact hmem⟩

/-- C3 amended: after merging `200 + k` messages into an initially empty
view, the view holds exactly 200 entries: the last 200 in delivery order,
the first `k` delivered having been evicted from the front. The length
bound itself always holds. -/
theorem mergeRetention_bound (events : List Message) (k : Nat)
    (h : events.length = 200 + k) :
    (viewAfter [] events).length = 200 ∧
      viewAfter [] events = events.drop k := by
  have h0 : ([] : List Message).length ≤ 200 := by simp
  have hv := viewAfter_eq_lastN_aux events [] h0
  rw [List.nil_append] at hv
  refine ⟨?_, ?_⟩
  · rw [hv]
    unfold lastN
    rw [List.length_drop]
    omega
  · rw [hv]
    unfold lastN
    congr 1
    omega

/-- C3 amended, witness: the 201 concrete messages above leave a view of
exactly 200 entries, the first-delivered one evicted. -/
theorem mergeRetention_bound_witness :
    (viewAfter [] deliveredLateFirst).length = 200 ∧
      viewAfter [] deliveredLateFirst = deliveredLateFirst.drop 1 :=
  mergeRetention_bound deliveredLateFirst 1 (by simp [deliveredLateFirst])

/-- C10: a live change-feed event whose type is not INSERT (an update or
delete notification) leaves the in-memory message sequence completely
unchanged. -/
theorem messageListener_non_insert_frame (prev : List Message) (p : Payload)
    (profileData : Option Profile) (h : p.eventType ≠ EventType.INSERT) :
    messageListener prev p profileData = prev := by
  unfold messageListener
  rw [if_neg h]

/-- C10, witness: an UPDATE event leaves a one-message view untouched. -/
theorem messageListener_non_insert_frame_witness :
    messageListener [msgA] ⟨EventType.UPDATE, msgB⟩ none = [msgA] :=
  messageListener_non_insert_frame [msgA] ⟨EventType.UPDATE, msgB⟩ none
    (by decide)

/-! ### ShortIdGenerator and ProfileProvisioner: `upsertProfile`
(pages/index.tsx, lines 49-85)

`const generatedShortId = userEmail ? sha256(userEmail).substring(0, 7)
                                     : "guest_id";`
The fetch result and the hash function are passed in as arguments; the empty
string is falsy in the source language, hence the extra emptiness test. -/

/-- The `substring(0, 7)` operation on the character sequence. -/
def jsSubstring0_7 (s : String) : String :=
  String.mk (s.data.take 7)

/-- The short-id derivation of `upsertProfile` (line 64). -/
def generatedShortId (sha256hex : String → String)
    (userEmail : Option String) : String :=
  match userEmail with
  | some email =>
    if email = "" then "guest_id" else jsSubstring0_7 (sha256hex email)
  | none => "guest_id"

/-- The outcome of one `upsertProfile` call: bail out on a real fetch error,
keep an existing row untouched, or insert a fresh row. -/
inductive UpsertAction
  | abort
  | keepExisting (p : Profile)
  | insertNew (row : Profile)
deriving DecidableEq

/-- The guard `fetchError && fetchError.code !== "PGRST116"` (line 56). -/
def fetchErrorBlocks (fetchError : Option String) : Bool :=
  match fetchError with
  | some code => code != "PGRST116"
  | none => false

/-- Embedding of `upsertProfile` (lines 49-85): the fetch outcome
(`existingProfile`, `fetchError`) and the random username suffix are
arguments standing for the external calls. -/
def upsertProfile (sha256hex : String → String) (userId : String)
    (userEmail : Option String) (randName : String)
    (existingProfile : Option Profile) (fetchError : Option String) :
    UpsertAction :=
  if fetchErrorBlocks fetchError then UpsertAction.abort
  else
    match existingProfile with
    | none =>
      UpsertAction.insertNew
        { id := userId, username := some ("User-" ++ randName),
          short_id := generatedShortId sha256hex userEmail,
          avatar_url := none }
    | some p => UpsertAction.keepExisting p

/-- C6 counterexample: with the seed absent the derivation yields the
sentinel `"guest_id"`, which has 8 characters, so the fixed-length
7-character contract does not hold for the sentinel. -/
theorem shortId_sentinel_length_cex :
    generatedShortId id none = "guest_id" ∧
      ("guest_id" : String).length ≠ 7 := by
  exact ⟨rfl, by decide⟩

/-- C6 amended: the derivation is a pure function of the seed; with a
non-empty seed present it is the first 7 characters of the hex digest and
(whenever the digest has at least 7 characters, as a SHA-256 hex digest of
length 64 does) has length exactly 7; with the seed absent it is the fixed
sentinel `"guest_id"`, whose length is 8, not 7. -/
theorem generatedShortId_spec (f : String → String) (e : String)
    (he : e ≠ "") (hlen : 7 ≤ (f e).length) :
    generatedShortId f (some e) = jsSubstring0_7 (f e) ∧
      (generatedShortId f (some e)).length = 7 ∧
      generatedShortId f none = "guest_id" ∧
      ("guest_id" : String).length = 8 := by
  have h1 : generatedShortId f (some e) = jsSubstring0_7 (f e) := by
    show (if e = "" then "guest_id" else jsSubstring0_7 (f e)) =
      jsSubstring0_7 (f e)
    rw [if_neg he]
  refine ⟨h1, ?_, rfl, by decide⟩
  rw [h1]
  have h2 : (jsSubstring0_7 (f e)).length = ((f e).data.take 7).length := rfl
  rw [h2, List.length_take]
  have h3 : (f e).length = (f e).data.length := rfl
  omega

/-- C6 amended, witness: the identity function as digest of the concrete
seed "abcdefgh". -/
theorem generatedShortId_spec_witness :
    generatedShortId id (some "abcdefgh") = jsSubstring0_7 (id "abcdefgh") ∧
      (generatedShortId id (some "abcdefgh")).length = 7 ∧
      generatedShortId id none = "guest_id" ∧
      ("guest_id" : String).length = 8 :=
  generatedShortId_spec id "abcdefgh" (by decide) (by decide)

/-- C8: when the profile row for the user already exists (the fetch returned
it, with no error), `upsertProfile` keeps that row unchanged: no insert
action is produced and every field of the returned profile is the fetched
one. -/
theorem upsertProfile_existing_frame (f : String → String) (userId : String)
    (userEmail : Option String) (randName : String) (p : Profile) :
    upsertProfile f userId userEmail randName (some p) none =
      UpsertAction.keepExisting p := rfl

/-! ### FriendshipManager: `handleAddFriend` (pages/index.tsx, lines 143-181)

Both directional inserts are always attempted once the guards pass; their
store responses arrive as `insertError1` / `insertError2`. A code-23505
uniqueness violation only suppresses the per-direction error log; any error
on either direction still selects the failure alert branch. -/

/-- The outcome of `handleAddFriend`: early return, the already-friends
alert, the failure alert (recording which directions logged an error), or
the success alert. Reaching `failure` or `success` means both directional
inserts were issued. -/
inductive AddFriendResult
  | noop
  | alreadyFriends
  | failure (logged1 logged2 : Bool)
  | success
deriving DecidableEq

/-- Whether the insert error of one direction is written to the console:
`insertError && insertError.code !== "23505"` (lines 172-173). -/
def logsError (e : Option String) : Bool :=
  match e with
  | some code => code != "23505"
  | none => false

/-- Embedding of `handleAddFriend` (lines 143-181). -/
def handleAddFriend (myProfile : Option Profile) (hasSession : Bool)
    (friendProfiles : List Profile) (friendProfileToAdd : Profile)
    (insertError1 insertError2 : Option String) : AddFriendResult :=
  match myProfile with
  | none => AddFriendResult.noop
  | some _ =>
    if !hasSession then AddFriendResult.noop
    else if friendProfiles.any
        (fun friend => friend.id == friendProfileToAdd.id) then
      AddFriendResult.alreadyFriends
    else if insertError1.isSome || insertError2.isSome then
      AddFriendResult.failure (logsError insertError1) (logsError insertError2)
    else AddFriendResult.success

/-- A concrete caller profile. -/
def profileA : Profile :=
  { id := "alice", username := some "Alice", avatar_url := none,
    short_id := "aaaaaaa" }

/-- A concrete peer profile. -/
def profileB : Profile :=
  { id := "bob", username := some "Bob", avatar_url := none,
    short_id := "bbbbbbb" }

/-- C7 counterexample: a uniqueness violation (code 23505) on the first
directional insert, with the second succeeding — exactly the retry after a
partial failure — still makes the operation report failure to the caller,
not success, even though neither direction logs an error. -/
theorem addFriend_conflict_reported_failure_cex :
    handleAddFriend (some profileA) true [] profileB (some "23505") none =
        AddFriendResult.failure false false ∧
      AddFriendResult.failure false false ≠ AddFriendResult.success := by
  decide

/-- C7 amended: a code-23505 uniqueness violation on a directional insert is
swallowed only for logging (that direction logs no error), but the overall
operation still reports failure whenever either insert returned any error;
the insert for the other direction is still attempted and not rolled back. -/
theorem addFriend_conflict_silent_but_failure (my : Profile)
    (friends : List Profile) (toAdd : Profile) (e2 : Option String)
    (hnew : friends.any (fun friend => friend.id == toAdd.id) = false) :
    handleAddFriend (some my) true friends toAdd (some "23505") e2 =
        AddFriendResult.failure false (logsError e2) ∧
      logsError (some "23505") = false := by
  constructor
  · simp [handleAddFriend, hnew, logsError]
  · decide

/-- C7 amended, witness: retrying with a conflict on the first direction and
success on the second. -/
theorem addFriend_conflict_silent_but_failure_witness :
    handleAddFriend (some profileA) true [] profileB (some "23505") none =
        AddFriendResult.failure false (logsError none) ∧
      logsError (some "23505") = false :=
  addFriend_conflict_silent_but_failure profileA [] profileB none (by decide)

/-! ### ConversationSync send path: `handleSendMessage`
(Chat component, lines 124-140)

`if (!newMessage.trim() && !uploadingImage) return;` then
`insert({ user_id, room_id, content: newMessage })` — the insert carries no
`image_url` at all (images go through a separate upload path). -/

/-- The whitespace test of the trim operation. -/
def isWS (c : Char) : Bool :=
  c == ' ' || c == '\t' || c == '\n' || c == '\r'

/-- The `trim()` operation: strip whitespace from both ends. -/
def jsTrim (s : String) : String :=
  String.mk (((s.data.dropWhile isWS).reverse.dropWhile isWS).reverse)

/-- The outcome of one `handleSendMessage` call: the early return, or the
row handed to the messages insert. -/
inductive SendAction
  | rejected
  | insertMessage (user_id room_id : String) (content : Option String)
      (image_url : Option String)
deriving DecidableEq

/-- Embedding of `handleSendMessage` (lines 124-140). -/
def handleSendMessage (userId roomId : String) (newMessage : String)
    (uploadingImage : Bool) : SendAction :=
  if jsTrim newMessage == "" && !uploadingImage then SendAction.rejected
  else SendAction.insertMessage userId roomId (some newMessage) none

/-- C9 counterexample: with an image upload in progress and an empty text
body, the send guard does not reject, and the created row has an empty text
body and no attachment reference — both parts of the claimed invariant
fail at once. -/
theorem sendMessage_empty_during_upload_cex :
    handleSendMessage "u1" "r" "" true =
        SendAction.insertMessage "u1" "r" (some "") none ∧
      handleSendMessage "u1" "r" "" true ≠ SendAction.rejected := by
  decide

/-- C9 amended: the send operation rejects locally exactly when the trimmed
text is empty and no image upload is in progress; every row it does create
carries the raw text as content and never an attachment reference, so the
at-least-one-present invariant holds only when the trimmed text is
non-empty. -/
theorem handleSendMessage_reject_iff (userId roomId msg : String)
    (up : Bool) :
    (handleSendMessage userId roomId msg up = SendAction.rejected ↔
      (jsTrim msg = "" ∧ up = false)) ∧
    (¬ (jsTrim msg = "" ∧ up = false) →
      handleSendMessage userId roomId msg up =
        SendAction.insertMessage userId roomId (some msg) none) := by
  cases hb : (jsTrim msg == "" && !up) with
  | true =>
    have hsplit := (Bool.and_eq_true _ _).mp hb
    have hp : jsTrim msg = "" ∧ up = false :=
      ⟨eq_of_beq hsplit.1, by simpa using hsplit.2⟩
    have hr : handleSendMessage userId roomId msg up = SendAction.rejected := by
      simp [handleSendMessage, hb]
    exact ⟨⟨fun _ => hp, fun _ => hr⟩, fun hc => absurd hp hc⟩
  | false =>
    have hp : ¬ (jsTrim msg = "" ∧ up = false) := by
      rintro ⟨h1, h2⟩
      simp [h1, h2] at hb
    have hr : handleSendMessage userId roomId msg up =
        SendAction.insertMessage userId roomId (some msg) none := by
      simp [handleSendMessage, hb]
    refine ⟨⟨fun h => ?_, fun hpp => absurd hpp hp⟩, fun _ => hr⟩
    rw [hr] at h
    simp at h

/-- C9 amended, witness: a non-empty text body is sent as a row carrying
that text and no attachment. -/
theorem handleSendMessage_reject_iff_witness :
    handleSendMessage "u1" "r" "hi" false =
      SendAction.insertMessage "u1" "r" (some "hi") none :=
  (handleSendMessage_reject_iff "u1" "r" "hi" false).2 (by decide)

end Chatsite
